import Mathlib

/-!
Verification of the GymBuddy social-coordination core.

Shallow embedding of `gymbuddy-backend/routes/friends.js` (friend-request
state machine, soft-deleted friendships), `gymbuddy-backend/routes/messages.js`
(conversation store with per-user soft delete and read-on-view), and
`gymbuddy-backend/utils/matchingService.js` (compatibility engine).

Modelling conventions:
* Mongo ObjectIds are modelled as `Nat`.
* Timestamps are milliseconds since the epoch, modelled as `ℤ`.
* JavaScript numbers used for hours/scores are modelled as exact rationals `ℚ`.
* A Mongo collection is a list of records in insertion order; `findOne` /
  `findOneAndUpdate` act on the first matching record, `updateMany` on all.
* Socket.io emissions are collected into an event list; the (non-core) email
  side effect is omitted.
-/

namespace GymBuddy

/-! ## Compatibility engine (`matchingService.js`) -/

/-- A user as read by the matching service: its id and `preferences` tags. -/
structure MUser where
  id : Nat
  preferences : List String
deriving Repr, DecidableEq

/-- A calendar event (`models/CalendarEvent.js`): owner, start/end in ms, shared flag. -/
structure CalendarEvent where
  userId : Nat
  start : Int
  endTime : Int
  shared : Bool
deriving Repr, DecidableEq

/-- The document store as seen by the matching service. -/
structure MatchDB where
  users : List MUser
  events : List CalendarEvent
deriving Repr, DecidableEq

/-- `calculateTimeOverlap(start1, end1, start2, end2)`: hours of overlap between
two periods given in ms.  Mirrors the source: if `s1 <= e2 && s2 <= e1`, the
overlap is `min(e1,e2) - max(s1,s2)` ms divided by `1000*60*60`, else `0`. -/
def calculateTimeOverlap (s1 e1 s2 e2 : Int) : ℚ :=
  if s1 ≤ e2 ∧ s2 ≤ e1 then
    ((min e1 e2 - max s1 s2 : Int) : ℚ) / (1000 * 60 * 60)
  else 0

/-- `calculateCompatibilityScore(overlapHours, preferenceMatch)`: overlap is
normalized by the 5-hour cap, then blended 50/50 with the preference match. -/
def calculateCompatibilityScore (overlapHours preferenceMatch : ℚ) : ℚ :=
  let normalizedOverlap := min (overlapHours / 5) 1
  normalizedOverlap * (1/2) + preferenceMatch * (1/2)

/-- JavaScript `Math.round`: round half toward positive infinity. -/
def jsRound (q : ℚ) : Int := ⌊q + 1/2⌋

/-- `[...new Set(l)]`: deduplication keeping the first occurrence, in order. -/
def jsSetList (l : List String) : List String :=
  l.foldl (fun acc x => if x ∈ acc then acc else acc ++ [x]) []

/-- `sharedPrefs = [...userPrefs].filter(pref => otherPrefs.has(pref))`. -/
def sharedPrefsOf (userPreferences otherPreferences : List String) : List String :=
  (jsSetList userPreferences).filter
    (fun p => decide (p ∈ jsSetList otherPreferences))

/-- Jaccard preference-match score: `|shared| / |union|`, `0` on empty union. -/
def prefMatchScore (userPreferences otherPreferences : List String) : ℚ :=
  let uniquePrefs := jsSetList (jsSetList userPreferences ++ jsSetList otherPreferences)
  if 0 < uniquePrefs.length then
    ((sharedPrefsOf userPreferences otherPreferences).length : ℚ) / (uniquePrefs.length : ℚ)
  else 0

/-- Total overlap hours: the double loop over the current user's events and the
candidate's events, guarded (as in the source) by both lists being non-empty. -/
def totalOverlap (userEvents otherEvents : List CalendarEvent) : ℚ :=
  if 0 < userEvents.length ∧ 0 < otherEvents.length then
    userEvents.foldl
      (fun acc ue =>
        otherEvents.foldl
          (fun acc2 oe =>
            acc2 + calculateTimeOverlap ue.start ue.endTime oe.start oe.endTime)
          acc)
      0
  else 0

/-- One value of `userEventsMap`: a candidate user plus their collected events. -/
structure MatchEntry where
  user : MUser
  events : List CalendarEvent
deriving Repr, DecidableEq

/-- Inserting one shared event into `userEventsMap`: append to the owner's
entry when present, else create a fresh entry with an unknown user (the
source's fallback; its fire-and-forget re-fetch never lands synchronously). -/
def addEventToMap (entries : List MatchEntry) (e : CalendarEvent) : List MatchEntry :=
  if entries.any (fun en => en.user.id == e.userId) then
    entries.map (fun en =>
      if en.user.id = e.userId then { en with events := en.events ++ [e] } else en)
  else
    entries ++ [{ user := { id := e.userId, preferences := [] }, events := [e] }]

/-- Build `userEventsMap`: initialize an entry for every other user, then fold
the shared events in. -/
def buildEntries (otherUsers : List MUser) (sharedEvents : List CalendarEvent) :
    List MatchEntry :=
  sharedEvents.foldl addEventToMap (otherUsers.map fun u => { user := u, events := [] })

/-- One element of the `findPotentialBuddies` result. -/
structure MatchResult where
  user : MUser
  compatibilityScore : ℚ
  overlapHours : ℚ
  preferenceMatch : Int
  sharedPreferences : List String
deriving Repr, DecidableEq

/-- Evaluate one `userEventsMap` entry: include it iff the overlap meets the
threshold or at least one preference is shared. -/
def evalMatch (userPreferences : List String) (userEvents : List CalendarEvent)
    (threshold : ℚ) (en : MatchEntry) : Option MatchResult :=
  let tot := totalOverlap userEvents en.events
  let shared := sharedPrefsOf userPreferences en.user.preferences
  let pscore := prefMatchScore userPreferences en.user.preferences
  if threshold ≤ tot ∨ 0 < shared.length then
    some { user := en.user
           compatibilityScore := calculateCompatibilityScore tot pscore
           overlapHours := (jsRound (tot * 10) : ℚ) / 10
           preferenceMatch := jsRound (pscore * 100)
           sharedPreferences := shared }
  else none

/-- `potentialMatches.sort((a, b) => b.compatibilityScore - a.compatibilityScore)`:
stable sort, highest score first. -/
def sortByScoreDesc (l : List MatchResult) : List MatchResult :=
  l.mergeSort (fun a b => decide (b.compatibilityScore ≤ a.compatibilityScore))

/-- `findPotentialBuddies(userId, threshold, daysAhead)` at time `now`.
Mirrors the source step by step; note that `endDate` is computed from
`daysAhead` but never used afterwards — both event queries filter only by
`start ≥ now`. -/
def findPotentialBuddies (db : MatchDB) (userId : Nat) (threshold : ℚ)
    (daysAhead : Int) (now : Int) : Except String (List MatchResult) :=
  match db.users.find? (fun u => u.id == userId) with
  | none => .error "User not found"
  | some currentUser =>
    let userPreferences := currentUser.preferences
    let _endDate := now + daysAhead * 86400000
    let userEvents := db.events.filter (fun e => e.userId == userId && decide (now ≤ e.start))
    let otherUsers := db.users.filter (fun u => u.id != userId)
    if otherUsers.isEmpty then .ok []
    else
      let sharedEvents := db.events.filter
        (fun e => e.userId != userId && e.shared && decide (now ≤ e.start))
      let entries := buildEntries otherUsers sharedEvents
      let potentialMatches := entries.filterMap (evalMatch userPreferences userEvents threshold)
      .ok (sortByScoreDesc potentialMatches)

/-! ## Conversation store (`routes/messages.js`) -/

/-- A message record (`models/Message.js`). -/
structure Message where
  id : Nat
  sender : Nat
  recipient : Nat
  content : String
  read : Bool
  deletedFor : List Nat
  createdAt : Int
deriving Repr, DecidableEq

/-- The document store as seen by the message routes: the user ids that
resolve, and the message collection. -/
structure MsgState where
  users : List Nat
  messages : List Message
deriving Repr, DecidableEq

/-- Socket events emitted by the conversation read path. -/
inductive MEvent where
  | messages_read (toChannel : Nat) (byUser : Nat)
deriving Repr, DecidableEq

/-- The filter of `GET /api/messages/:userId`: messages between the two users,
excluding those the caller has soft-deleted, sorted by creation ascending. -/
def conversationMessages (st : MsgState) (currentUserId otherUserId : Nat) :
    List Message :=
  (st.messages.filter (fun m =>
    ((m.sender == currentUserId && m.recipient == otherUserId) ||
     (m.sender == otherUserId && m.recipient == currentUserId)) &&
    !(decide (currentUserId ∈ m.deletedFor)))).mergeSort
    (fun a b => decide (a.createdAt ≤ b.createdAt))

/-- The `updateMany` filter of the mark-read side effect: unread messages from
`otherUserId` to `currentUserId` not soft-deleted by the caller. -/
def isUnreadFrom (otherUserId currentUserId : Nat) (m : Message) : Bool :=
  m.sender == otherUserId && m.recipient == currentUserId &&
    m.read == false && !(decide (currentUserId ∈ m.deletedFor))

/-- Result of `GET /api/messages/:userId`. -/
structure GetConvResult where
  ok : Bool
  messages : List Message
  state : MsgState
  events : List MEvent
deriving Repr, DecidableEq

/-- `GET /api/messages/:userId`: 404 if the counterpart does not resolve; else
fetch the conversation (snapshot before the update), mark all matching unread
messages read, and emit `messages_read` iff any message was modified. -/
def getConversation (st : MsgState) (currentUserId otherUserId : Nat) :
    GetConvResult :=
  if ¬ (otherUserId ∈ st.users) then
    { ok := false, messages := [], state := st, events := [] }
  else
    let msgs := conversationMessages st currentUserId otherUserId
    let modifiedCount := (st.messages.filter (isUnreadFrom otherUserId currentUserId)).length
    let newMessages := st.messages.map (fun m =>
      if isUnreadFrom otherUserId currentUserId m then { m with read := true } else m)
    { ok := true
      messages := msgs
      state := { st with messages := newMessages }
      events := if 0 < modifiedCount then
          [MEvent.messages_read otherUserId currentUserId] else [] }

/-- The filter of `GET /api/messages/unread/count`: unread messages addressed
to the user, excluding those the user soft-deleted. -/
def unreadMessages (st : MsgState) (userId : Nat) : List Message :=
  st.messages.filter (fun m =>
    m.recipient == userId && m.read == false && !(decide (userId ∈ m.deletedFor)))

/-- `GET /api/messages/unread/count`. -/
def unreadCount (st : MsgState) (userId : Nat) : Nat :=
  (unreadMessages st userId).length

/-! ## Friend-request state machine (`routes/friends.js`) -/

/-- Friend-request status (`models/FriendRequest.js`). -/
inductive ReqStatus where
  | pending
  | accepted
  | rejected
deriving Repr, DecidableEq

/-- A friend-request record (`models/FriendRequest.js`). -/
structure FriendRequest where
  id : Nat
  sender : Nat
  recipient : Nat
  status : ReqStatus
deriving Repr, DecidableEq

/-- A friendship record (`models/Friend.js`): an undirected edge with the
per-user tombstone array `deletedFor`. -/
structure Friend where
  id : Nat
  user1 : Nat
  user2 : Nat
  deletedFor : List Nat
deriving Repr, DecidableEq

/-- The document store seen by the friends routes, plus a fresh-id counter. -/
structure FriendState where
  users : List Nat
  requests : List FriendRequest
  friendships : List Friend
  nextId : Nat
deriving Repr, DecidableEq

/-- The empty store over a fixed user collection. -/
def initialFriendState (users : List Nat) : FriendState :=
  { users := users, requests := [], friendships := [], nextId := 0 }

/-- Socket events emitted by the friends routes. -/
inductive FEvent where
  | friend_request (toChannel : Nat) (requestId : Nat) (fromUser : Nat)
  | friend_request_accepted (toChannel : Nat) (friendshipId : Nat) (friendUser : Nat)
  | friendship_removed (toChannel : Nat) (byUser : Nat)
deriving Repr, DecidableEq

/-- HTTP-level outcome of a friends-route call. -/
inductive Outcome where
  | selfRequest
  | recipientNotFound
  | alreadyFriends
  | duplicatePending
  | resent (requestId : Nat)
  | autoAccepted (friendshipId : Nat)
  | created (requestId : Nat)
  | requestNotFound
  | forbidden
  | alreadyResolved
  | responded (friendshipId : Option Nat)
  | friendshipNotFound
  | removed (friendshipId : Nat)
deriving Repr, DecidableEq

/-- Result of one friends-route call. -/
structure OpResult where
  outcome : Outcome
  state : FriendState
  events : List FEvent
deriving Repr, DecidableEq

/-- The `$or` pair filter on requests: either orientation of `{a, b}`. -/
def pairReq (a b : Nat) (r : FriendRequest) : Prop :=
  (r.sender = a ∧ r.recipient = b) ∨ (r.sender = b ∧ r.recipient = a)

instance (a b : Nat) (r : FriendRequest) : Decidable (pairReq a b r) := by
  unfold pairReq
  infer_instance

/-- The `$or` pair filter on friendships: either orientation of `{a, b}`. -/
def pairFriend (a b : Nat) (f : Friend) : Prop :=
  (f.user1 = a ∧ f.user2 = b) ∨ (f.user1 = b ∧ f.user2 = a)

instance (a b : Nat) (f : Friend) : Decidable (pairFriend a b f) := by
  unfold pairFriend
  infer_instance

/-- `findOne`: the first record of the collection matching the filter. -/
def findFirst (p : α → Prop) [DecidablePred p] : List α → Option α
  | [] => none
  | a :: as => if p a then some a else findFirst p as

/-- Update of one request record identified by id (`save` on a fetched doc). -/
def updateRequest (l : List FriendRequest) (i : Nat) (r' : FriendRequest) :
    List FriendRequest :=
  l.map (fun q => if q.id = i then r' else q)

/-- Update of one friendship record identified by id (`findByIdAndUpdate`). -/
def updateFriend (l : List Friend) (i : Nat) (f' : Friend) : List Friend :=
  l.map (fun f => if f.id = i then f' else f)

/-- Materialize or reactivate the friendship for `{a, b}`: if any record for
the pair exists, `$pull` both users from its `deletedFor`; otherwise insert a
new record.  Models the identical code in the accept branch of
`PUT /api/friends/requests/:requestId` and the auto-accept branch of
`POST /api/friends/request`.  Returns the friendship id and the new state. -/
def materializeFriendship (st : FriendState) (a b : Nat) : Nat × FriendState :=
  match findFirst (pairFriend a b) st.friendships with
  | some f =>
    let f' := { f with deletedFor := f.deletedFor.filter (fun u => decide (u ≠ a ∧ u ≠ b)) }
    (f.id, { st with friendships := updateFriend st.friendships f.id f' })
  | none =>
    let nf : Friend := { id := st.nextId, user1 := a, user2 := b, deletedFor := [] }
    (nf.id, { st with friendships := st.friendships ++ [nf], nextId := st.nextId + 1 })

/-- Insert a fresh pending request from `s` to `r` and notify the recipient. -/
def createNewRequest (st : FriendState) (s r : Nat) : OpResult :=
  let nr : FriendRequest := { id := st.nextId, sender := s, recipient := r, status := .pending }
  { outcome := .created nr.id
    state := { st with requests := st.requests ++ [nr], nextId := st.nextId + 1 }
    events := [.friend_request r nr.id s] }

/-- `POST /api/friends/request` with authenticated sender `s` and body
recipient `r`.  Mirrors the source's branch order: self check, recipient
lookup, active-friendship check, then the existing-request cases. -/
def sendRequest (st : FriendState) (s r : Nat) : OpResult :=
  if s = r then { outcome := .selfRequest, state := st, events := [] }
  else if ¬ (r ∈ st.users) then { outcome := .recipientNotFound, state := st, events := [] }
  else match findFirst (fun f => pairFriend s r f ∧ ¬ (s ∈ f.deletedFor)) st.friendships with
  | some _ => { outcome := .alreadyFriends, state := st, events := [] }
  | none =>
    match findFirst (pairReq s r) st.requests with
    | some ex =>
      if ex.sender = s ∧ ex.status = .pending then
        { outcome := .duplicatePending, state := st, events := [] }
      else if ex.status = .rejected ∨ ex.status = .accepted then
        let ex' := if ex.sender = r then
            { ex with sender := s, recipient := r, status := .pending }
          else { ex with status := .pending }
        { outcome := .resent ex.id
          state := { st with requests := updateRequest st.requests ex.id ex' }
          events := [.friend_request r ex.id s] }
      else if ex.sender = r ∧ ex.status = .pending then
        let ex' := { ex with status := .accepted }
        let st1 := { st with requests := updateRequest st.requests ex.id ex' }
        let (fid, st2) := materializeFriendship st1 s r
        { outcome := .autoAccepted fid
          state := st2
          events := [.friend_request_accepted r fid s, .friend_request_accepted s fid r] }
      else
        -- unreachable in the source (every status/orientation is covered above);
        -- mirrors the fall-through to the insertion of a new request
        createNewRequest st s r
    | none => createNewRequest st s r

/-- Decision sent in the body of `PUT /api/friends/requests/:requestId`
(any other value is rejected by validation before the record is touched). -/
inductive Decision where
  | accepted
  | rejected
deriving Repr, DecidableEq

/-- The request status written by a decision. -/
def Decision.toStatus : Decision → ReqStatus
  | .accepted => .accepted
  | .rejected => .rejected

/-- `PUT /api/friends/requests/:requestId` with authenticated user `uid`. -/
def respond (st : FriendState) (requestId uid : Nat) (d : Decision) : OpResult :=
  match findFirst (fun q => q.id = requestId) st.requests with
  | none => { outcome := .requestNotFound, state := st, events := [] }
  | some fr =>
    if ¬ (fr.recipient = uid) then { outcome := .forbidden, state := st, events := [] }
    else if ¬ (fr.status = .pending) then { outcome := .alreadyResolved, state := st, events := [] }
    else
      let fr' := { fr with status := d.toStatus }
      let st1 := { st with requests := updateRequest st.requests fr.id fr' }
      match d with
      | .rejected => { outcome := .responded none, state := st1, events := [] }
      | .accepted =>
        let (fid, st2) := materializeFriendship st1 fr.sender fr.recipient
        { outcome := .responded (some fid)
          state := st2
          events := [.friend_request_accepted fr.sender fid uid] }

/-- `DELETE /api/friends/:friendId` with authenticated user `uid`: tombstone
the active friendship for the caller, then flip the pair's request (if any)
to `rejected`, and notify the other user. -/
def removeFriendship (st : FriendState) (uid friendId : Nat) : OpResult :=
  match findFirst (fun f => pairFriend uid friendId f ∧ ¬ (uid ∈ f.deletedFor)) st.friendships with
  | none => { outcome := .friendshipNotFound, state := st, events := [] }
  | some f =>
    let f' := { f with deletedFor :=
      if uid ∈ f.deletedFor then f.deletedFor else f.deletedFor ++ [uid] }
    let st1 := { st with friendships := updateFriend st.friendships f.id f' }
    let st2 := match findFirst (pairReq uid friendId) st1.requests with
      | some q => { st1 with requests := updateRequest st1.requests q.id { q with status := .rejected } }
      | none => st1
    { outcome := .removed f.id, state := st2, events := [.friendship_removed friendId uid] }

/-- One call of the friends API, for reasoning about arbitrary sequences. -/
inductive FOp where
  | send (s r : Nat)
  | respond (requestId uid : Nat) (d : Decision)
  | remove (uid friendId : Nat)
deriving Repr, DecidableEq

/-- The state reached after one call (responses and events discarded). -/
def stepOp (st : FriendState) : FOp → FriendState
  | .send s r => (sendRequest st s r).state
  | .respond i u d => (respond st i u d).state
  | .remove u f => (removeFriendship st u f).state

/-- The state reached after a sequence of calls. -/
def runOps (st : FriendState) (ops : List FOp) : FriendState :=
  ops.foldl stepOp st

/-- Number of friendship records for the unordered pair `{x, y}`. -/
def pairCount (st : FriendState) (x y : Nat) : Nat :=
  (st.friendships.filter (fun f => decide (pairFriend x y f))).length

/-- `GET /api/friends/requests/received`: pending requests addressed to `uid`
(sorting by creation date omitted; ids are assigned in creation order). -/
def receivedRequests (st : FriendState) (uid : Nat) : List FriendRequest :=
  st.requests.filter (fun r => decide (r.recipient = uid ∧ r.status = .pending))

/-- The store invariant maintained by every friends-route call: friendship ids
are fresh-bounded and distinct, no self-edges or self-requests exist, and the
pair-uniqueness property holds. -/
def StoreInv (st : FriendState) : Prop :=
  (∀ f ∈ st.friendships, f.id < st.nextId) ∧
  (st.friendships.map (fun f => f.id)).Nodup ∧
  (∀ f ∈ st.friendships, f.user1 ≠ f.user2) ∧
  (∀ q ∈ st.requests, q.sender ≠ q.recipient) ∧
  (∀ x y, pairCount st x y ≤ 1)

/-! ## Lemmas and theorems -/

/-- Claim C6: the pairwise overlap function returns
`max(0, min(e1,e2) − max(s1,s2))` converted to hours; the events
`[10:00,11:00)` and `[10:30,11:30)` yield exactly `0.5` hours, and the touching
events `[10:00,11:00)` and `[11:00,12:00)` yield exactly `0`. -/
theorem overlap_formula_and_examples :
    (∀ s1 e1 s2 e2 : Int, s1 ≤ e1 → s2 ≤ e2 →
      calculateTimeOverlap s1 e1 s2 e2 =
        ((max 0 (min e1 e2 - max s1 s2) : Int) : ℚ) / 3600000) ∧
    calculateTimeOverlap 36000000 39600000 37800000 41400000 = 1/2 ∧
    calculateTimeOverlap 36000000 39600000 39600000 43200000 = 0 := by
  refine ⟨?_, by norm_num [calculateTimeOverlap], by norm_num [calculateTimeOverlap]⟩
  intro s1 e1 s2 e2 h1 h2
  unfold calculateTimeOverlap
  split
  · next h =>
    have hmm : min e1 e2 - max s1 s2 = max 0 (min e1 e2 - max s1 s2) := by omega
    rw [← hmm]
    norm_num
  · next h =>
    have hmm : max 0 (min e1 e2 - max s1 s2) = 0 := by omega
    rw [hmm]
    norm_num

/-- Witness for the claim C6 theorem at concrete inputs. -/
theorem overlap_formula_witness :
    calculateTimeOverlap 36000000 39600000 37800000 41400000 =
      ((max 0 (min 39600000 41400000 - max 36000000 37800000) : Int) : ℚ) / 3600000 :=
  overlap_formula_and_examples.1 36000000 39600000 37800000 41400000
    (by norm_num) (by norm_num)

/-- Claim C7: the compatibility score lies in `[0,1]` for non-negative overlap
and preference match in `[0,1]`, is monotonically non-decreasing in both
arguments, and strictly increasing in the overlap below the 5-hour cap. -/
theorem score_bounds_and_monotone :
    (∀ o p : ℚ, 0 ≤ o → 0 ≤ p → p ≤ 1 →
      0 ≤ calculateCompatibilityScore o p ∧ calculateCompatibilityScore o p ≤ 1) ∧
    (∀ o1 o2 p : ℚ, o1 ≤ o2 →
      calculateCompatibilityScore o1 p ≤ calculateCompatibilityScore o2 p) ∧
    (∀ o1 o2 p : ℚ, o1 < o2 → o2 ≤ 5 →
      calculateCompatibilityScore o1 p < calculateCompatibilityScore o2 p) ∧
    (∀ o p1 p2 : ℚ, p1 ≤ p2 →
      calculateCompatibilityScore o p1 ≤ calculateCompatibilityScore o p2) := by
  refine ⟨?_, ?_, ?_, ?_⟩
  · intro o p ho hp hp1
    unfold calculateCompatibilityScore
    constructor
    · have h1 : (0:ℚ) ≤ min (o / 5) 1 := le_min (by positivity) (by norm_num)
      nlinarith
    · have h2 : min (o / 5) 1 ≤ 1 := min_le_right _ _
      nlinarith
  · intro o1 o2 p h
    unfold calculateCompatibilityScore
    have h1 : min (o1 / 5) 1 ≤ min (o2 / 5) 1 :=
      min_le_min (by linarith) le_rfl
    linarith
  · intro o1 o2 p h h5
    unfold calculateCompatibilityScore
    have h1 : min (o1 / 5) 1 = o1 / 5 := min_eq_left (by linarith)
    have h2 : min (o2 / 5) 1 = o2 / 5 := min_eq_left (by linarith)
    rw [h1, h2]
    linarith
  · intro o p1 p2 h
    unfold calculateCompatibilityScore
    linarith

/-- Witness for the claim C7 theorem at concrete inputs. -/
theorem score_bounds_witness :
    0 ≤ calculateCompatibilityScore 1 (1/3) ∧ calculateCompatibilityScore 1 (1/3) ≤ 1 :=
  score_bounds_and_monotone.1 1 (1/3) (by norm_num) (by norm_num) (by norm_num)

/-- Claim C10: `findPotentialBuddies` does not depend on `daysAhead` — the
computed end date is never applied to any query or comparison, so any two
values of the parameter produce the same result. -/
theorem findPotentialBuddies_ignores_daysAhead (db : MatchDB) (userId : Nat)
    (threshold : ℚ) (d1 d2 now : Int) :
    findPotentialBuddies db userId threshold d1 now =
      findPotentialBuddies db userId threshold d2 now := rfl

lemma mem_foldl_jsSet (l : List String) (acc : List String) (x : String) :
    x ∈ l.foldl (fun acc x => if x ∈ acc then acc else acc ++ [x]) acc ↔
      x ∈ acc ∨ x ∈ l := by
  induction l generalizing acc with
  | nil => simp
  | cons a as ih =>
    simp only [List.foldl_cons, ih, List.mem_cons]
    by_cases h : a ∈ acc
    · rw [if_pos h]
      constructor
      · rintro (h1 | h1)
        · exact Or.inl h1
        · exact Or.inr (Or.inr h1)
      · rintro (h1 | h1 | h1)
        · exact Or.inl h1
        · exact Or.inl (h1 ▸ h)
        · exact Or.inr h1
    · rw [if_neg h]
      simp only [List.mem_append, List.mem_singleton]
      tauto

lemma mem_jsSetList {l : List String} {x : String} : x ∈ jsSetList l ↔ x ∈ l := by
  unfold jsSetList
  rw [mem_foldl_jsSet]
  simp

lemma mem_sharedPrefsOf {u o : List String} {p : String} :
    p ∈ sharedPrefsOf u o ↔ p ∈ u ∧ p ∈ o := by
  unfold sharedPrefsOf
  simp [List.mem_filter, mem_jsSetList]

lemma sharedPrefsOf_length_pos {u o : List String} :
    0 < (sharedPrefsOf u o).length ↔ ∃ p, p ∈ u ∧ p ∈ o := by
  rw [List.length_pos_iff_exists_mem]
  constructor
  · rintro ⟨p, hp⟩
    exact ⟨p, mem_sharedPrefsOf.mp hp⟩
  · rintro ⟨p, hp⟩
    exact ⟨p, mem_sharedPrefsOf.mpr hp⟩

lemma addEventToMap_known (entries : List MatchEntry) (e : CalendarEvent)
    (h : ∃ en ∈ entries, en.user.id = e.userId) :
    addEventToMap entries e = entries.map (fun en =>
      if en.user.id = e.userId then { en with events := en.events ++ [e] } else en) := by
  unfold addEventToMap
  rw [if_pos]
  rcases h with ⟨en, hen, hid⟩
  rw [List.any_eq_true]
  exact ⟨en, hen, by simp [hid]⟩

lemma foldl_addEventToMap_eq (evs : List CalendarEvent) (entries : List MatchEntry)
    (hnd : (entries.map (fun en => en.user.id)).Nodup)
    (hown : ∀ e ∈ evs, ∃ en ∈ entries, en.user.id = e.userId) :
    evs.foldl addEventToMap entries =
      entries.map (fun en =>
        { en with events := en.events ++ evs.filter (fun e => e.userId == en.user.id) }) := by
  induction evs generalizing entries with
  | nil =>
    rw [List.foldl_nil]
    have hfun : ∀ en : MatchEntry,
        ({ en with events := en.events ++ List.filter (fun e => e.userId == en.user.id) [] }) = en := by
      intro en
      simp only [List.filter_nil, List.append_nil]
    exact ((List.map_congr_left (fun en _ => hfun en)).trans (List.map_id entries)).symm
  | cons e evs ih =>
    rw [List.foldl_cons, addEventToMap_known entries e (hown e (by simp))]
    set g : MatchEntry → MatchEntry := fun en =>
      if en.user.id = e.userId then { en with events := en.events ++ [e] } else en with hg
    have huser : ∀ en, (g en).user = en.user := by
      intro en
      by_cases h : en.user.id = e.userId <;> simp [hg, h]
    have hids : (entries.map g).map (fun en => en.user.id) = entries.map (fun en => en.user.id) := by
      rw [List.map_map]
      exact List.map_congr_left (fun en _ => by rw [Function.comp_apply, huser])
    rw [ih (entries.map g) (by rw [hids]; exact hnd) ?_]
    · rw [List.map_map]
      refine List.map_congr_left (fun en hen => ?_)
      by_cases h : en.user.id = e.userId
      · simp only [Function.comp_apply, hg, if_pos h]
        have : (e.userId == en.user.id) = true := by simp [h]
        simp [List.filter_cons, this, h]
      · have : (e.userId == en.user.id) = false := by
          simp [BEq.comm]
          exact fun hh => h hh.symm
        simp only [Function.comp_apply, hg, if_neg h]
        simp [List.filter_cons, this]
    · intro e' he'
      rcases hown e' (by simp [he']) with ⟨en, hen, hid⟩
      exact ⟨g en, List.mem_map_of_mem g hen, by rw [huser]; exact hid⟩

lemma buildEntries_eq (otherUsers : List MUser) (evs : List CalendarEvent)
    (hnd : (otherUsers.map (fun u => u.id)).Nodup)
    (hown : ∀ e ∈ evs, ∃ u ∈ otherUsers, u.id = e.userId) :
    buildEntries otherUsers evs = otherUsers.map (fun u =>
      { user := u, events := evs.filter (fun e => e.userId == u.id) }) := by
  unfold buildEntries
  rw [foldl_addEventToMap_eq evs _ (by rw [List.map_map]; exact hnd) ?_, List.map_map]
  · rfl
  · intro e he
    rcases hown e he with ⟨u, hu, hid⟩
    exact ⟨{ user := u, events := [] }, List.mem_map_of_mem _ hu, hid⟩

lemma mem_sortByScoreDesc {l : List MatchResult} {m : MatchResult} :
    m ∈ sortByScoreDesc l ↔ m ∈ l := by
  unfold sortByScoreDesc
  exact (List.mergeSort_perm l _).mem_iff

/-- Claim C8: under referential integrity of shared-event owners and distinct
user ids, `findPotentialBuddies` contains a candidate `c` if and only if `c`'s
total overlap hours with the current user reach the threshold, or the two
preference sets intersect. -/
theorem match_inclusion_rule (db : MatchDB) (userId : Nat) (threshold : ℚ)
    (daysAhead now : Int) (currentUser c : MUser)
    (hfind : db.users.find? (fun u => u.id == userId) = some currentUser)
    (hc : c ∈ db.users) (hcid : c.id ≠ userId)
    (hnd : (db.users.map (fun u => u.id)).Nodup)
    (hri : ∀ e ∈ db.events, e.shared = true → ∃ u ∈ db.users, u.id = e.userId) :
    ∃ ms, findPotentialBuddies db userId threshold daysAhead now = .ok ms ∧
      ((∃ m ∈ ms, m.user.id = c.id) ↔
        (threshold ≤ totalOverlap
            (db.events.filter (fun e => e.userId == userId && decide (now ≤ e.start)))
            (db.events.filter (fun e => e.userId == c.id && e.shared && decide (now ≤ e.start)))
          ∨ ∃ p, p ∈ currentUser.preferences ∧ p ∈ c.preferences)) := by
  classical
  set userEvents := db.events.filter (fun e => e.userId == userId && decide (now ≤ e.start)) with huE
  set otherUsers := db.users.filter (fun u => u.id != userId) with hoU
  set sharedEvents := db.events.filter
      (fun e => e.userId != userId && e.shared && decide (now ≤ e.start)) with hsE
  have hco : c ∈ otherUsers := by
    rw [hoU, List.mem_filter]
    exact ⟨hc, by simp [hcid]⟩
  have hne : otherUsers.isEmpty = false := by
    rcases h : otherUsers with _ | ⟨a, as⟩
    · rw [h] at hco; exact absurd hco (List.not_mem_nil c)
    · rfl
  have hndo : (otherUsers.map (fun u => u.id)).Nodup :=
    hnd.sublist ((List.filter_sublist db.users).map (fun u => u.id))
  have hown : ∀ e ∈ sharedEvents, ∃ u ∈ otherUsers, u.id = e.userId := by
    intro e he
    rw [hsE, List.mem_filter] at he
    obtain ⟨hedb, hcond⟩ := he
    simp only [Bool.and_eq_true, bne_iff_ne, ne_eq, decide_eq_true_eq] at hcond
    obtain ⟨⟨hne', hsh⟩, _⟩ := hcond
    rcases hri e hedb hsh with ⟨u, hu, hid⟩
    refine ⟨u, ?_, hid⟩
    rw [hoU, List.mem_filter]
    exact ⟨hu, by simp [hid ▸ hne']⟩
  -- the candidate's event list in closed form
  have hcEvents : sharedEvents.filter (fun e => e.userId == c.id) =
      db.events.filter (fun e => e.userId == c.id && e.shared && decide (now ≤ e.start)) := by
    rw [hsE, List.filter_filter]
    refine List.filter_congr fun e he => ?_
    by_cases h1 : e.userId = c.id
    · have hb2 : (c.id != userId) = true := by simp [hcid]
      simp [h1, hb2]
    · have hb : (e.userId == c.id) = false := by simp [h1]
      simp [hb, h1]
  have hres : findPotentialBuddies db userId threshold daysAhead now =
      .ok (sortByScoreDesc ((buildEntries otherUsers sharedEvents).filterMap
        (evalMatch currentUser.preferences userEvents threshold))) := by
    unfold findPotentialBuddies
    rw [hfind]
    dsimp only
    rw [← hoU, hne]
    rfl
  refine ⟨_, hres, ?_⟩
  rw [buildEntries_eq otherUsers sharedEvents hndo hown]
  simp only [mem_sortByScoreDesc]
  rw [List.filterMap_map]
  constructor
  · rintro ⟨m, hm, hmid⟩
    rw [List.mem_filterMap] at hm
    rcases hm with ⟨u, hu, hsome⟩
    simp only [Function.comp_apply, evalMatch] at hsome
    split at hsome
    · next hcond =>
      have hmu : m.user = u := by
        cases hsome; rfl
      have huc : u = c := by
        refine List.inj_on_of_nodup_map hndo hu hco ?_
        rw [← hmu]
        exact hmid
      subst huc
      rw [hcEvents] at hcond
      rcases hcond with h | h
      · exact Or.inl h
      · exact Or.inr (sharedPrefsOf_length_pos.mp h)
    · exact absurd hsome (by simp)
  · intro hcond
    have hcond' : threshold ≤ totalOverlap userEvents (sharedEvents.filter (fun e => e.userId == c.id)) ∨
        0 < (sharedPrefsOf currentUser.preferences c.preferences).length := by
      rw [hcEvents]
      rcases hcond with h | h
      · exact Or.inl h
      · exact Or.inr (sharedPrefsOf_length_pos.mpr h)
    have hev : ∃ mc, evalMatch currentUser.preferences userEvents threshold
        { user := c, events := sharedEvents.filter (fun e => e.userId == c.id) } = some mc ∧
        mc.user = c := by
      simp only [evalMatch]
      rw [if_pos hcond']
      exact ⟨_, rfl, rfl⟩
    rcases hev with ⟨mc, hmc1, hmc2⟩
    refine ⟨mc, List.mem_filterMap.mpr ⟨c, hco, ?_⟩, by rw [hmc2]⟩
    simpa using hmc1

/-- Witness for the claim C8 theorem: in the two-user scenario with one shared
preference (Chest) and fully overlapping one-hour events, user 2 is matched. -/
theorem match_inclusion_rule_witness :
    ∃ ms, findPotentialBuddies
        ⟨[⟨1, ["Chest", "Back"]⟩, ⟨2, ["Chest", "Legs"]⟩],
         [⟨1, 100, 3600100, true⟩, ⟨2, 100, 3600100, true⟩]⟩ 1 (1/2) 14 0 = .ok ms ∧
      ((∃ m ∈ ms, m.user.id = (⟨2, ["Chest", "Legs"]⟩ : MUser).id) ↔
        ((1/2 : ℚ) ≤ totalOverlap
            (List.filter (fun e => e.userId == 1 && decide ((0:Int) ≤ e.start))
              [⟨1, 100, 3600100, true⟩, ⟨2, 100, 3600100, true⟩])
            (List.filter (fun e => e.userId == (⟨2, ["Chest", "Legs"]⟩ : MUser).id &&
                e.shared && decide ((0:Int) ≤ e.start))
              [⟨1, 100, 3600100, true⟩, ⟨2, 100, 3600100, true⟩])
          ∨ ∃ p, p ∈ (⟨1, ["Chest", "Back"]⟩ : MUser).preferences ∧
              p ∈ (⟨2, ["Chest", "Legs"]⟩ : MUser).preferences)) :=
  match_inclusion_rule
    ⟨[⟨1, ["Chest", "Back"]⟩, ⟨2, ["Chest", "Legs"]⟩],
     [⟨1, 100, 3600100, true⟩, ⟨2, 100, 3600100, true⟩]⟩ 1 (1/2) 14 0
    ⟨1, ["Chest", "Back"]⟩ ⟨2, ["Chest", "Legs"]⟩
    (by decide) (by decide) (by decide) (by decide) (by decide)

lemma mem_conversationMessages {st : MsgState} {x y : Nat} {m : Message} :
    m ∈ conversationMessages st x y ↔
      m ∈ st.messages ∧
        (((m.sender == x && m.recipient == y) || (m.sender == y && m.recipient == x)) &&
          !(decide (x ∈ m.deletedFor))) = true := by
  unfold conversationMessages
  rw [(List.mergeSort_perm _ _).mem_iff, List.mem_filter]

/-- Claim C4: one conversation view marks every unread message from `y` to `x`
(not hidden for `x`) as read, emits `messages_read` to `y` exactly when such a
message existed, and a repeated view changes nothing and emits nothing. -/
theorem read_on_view (st : MsgState) (x y : Nat) (hy : y ∈ st.users) :
    (∀ m ∈ (getConversation st x y).state.messages,
        m.sender = y → m.recipient = x → x ∉ m.deletedFor → m.read = true) ∧
    ((getConversation st x y).events =
      if st.messages.any (isUnreadFrom y x) then [MEvent.messages_read y x] else []) ∧
    getConversation ((getConversation st x y).state) x y =
      { ok := true
        messages := conversationMessages ((getConversation st x y).state) x y
        state := (getConversation st x y).state
        events := [] } := by
  have hcond : ¬¬(y ∈ st.users) := not_not_intro hy
  simp only [getConversation, if_neg hcond]
  set u : Message → Message := fun m =>
    if isUnreadFrom y x m then { m with read := true } else m with hu
  have huu : ∀ m, isUnreadFrom y x (u m) = false := by
    intro m
    by_cases h : isUnreadFrom y x m
    · rw [hu]
      simp only [if_pos h]
      unfold isUnreadFrom
      simp
    · rw [hu]
      simp only [if_neg h]
      exact Bool.eq_false_iff.mpr h
  refine ⟨?_, ?_, ?_⟩
  · intro m hm hs hr hd
    rw [List.mem_map] at hm
    rcases hm with ⟨m0, hm0, rfl⟩
    by_cases h : isUnreadFrom y x m0
    · rw [hu]; simp only [if_pos h]
    · rw [hu] at hs hr hd ⊢
      simp only [if_neg h] at hs hr hd ⊢
      by_contra hread
      rw [Bool.not_eq_true] at hread
      apply h
      unfold isUnreadFrom
      simp [hs, hr, hread, hd]
  · refine if_congr ?_ rfl rfl
    rw [List.any_eq_true]
    constructor
    · intro h
      rcases List.length_pos_iff_exists_mem.mp h with ⟨m, hm⟩
      rw [List.mem_filter] at hm
      exact ⟨m, hm.1, hm.2⟩
    · rintro ⟨m, hm, hp⟩
      exact List.length_pos_iff_exists_mem.mpr ⟨m, List.mem_filter.mpr ⟨hm, hp⟩⟩
  · have hfe : (st.messages.map u).filter (isUnreadFrom y x) = [] := by
      rw [List.filter_eq_nil_iff]
      intro m hm
      rcases List.mem_map.mp hm with ⟨m0, _, rfl⟩
      rw [huu]
      simp
    have hid : ∀ m, u (u m) = u m := by
      intro m
      have h1 : isUnreadFrom y x (u m) = false := huu m
      show (if isUnreadFrom y x (u m) = true then { u m with read := true } else u m) = u m
      rw [h1]
      simp
    have hmap2 : (st.messages.map u).map u = st.messages.map u := by
      rw [List.map_map]
      exact List.map_congr_left fun m _ => hid m
    simp only [hfe, hmap2, List.length_nil, lt_irrefl, if_false]

/-- Witness for the claim C4 theorem on a concrete state with one unread
message from user 2 to user 1. -/
theorem read_on_view_witness :
    (∀ m ∈ (getConversation ⟨[1, 2], [⟨0, 2, 1, "yo", false, [], 3⟩]⟩ 1 2).state.messages,
        m.sender = 2 → m.recipient = 1 → 1 ∉ m.deletedFor → m.read = true) ∧
    ((getConversation ⟨[1, 2], [⟨0, 2, 1, "yo", false, [], 3⟩]⟩ 1 2).events =
      if ([⟨0, 2, 1, "yo", false, [], 3⟩] : List Message).any (isUnreadFrom 2 1) then
        [MEvent.messages_read 2 1] else []) ∧
    getConversation ((getConversation ⟨[1, 2], [⟨0, 2, 1, "yo", false, [], 3⟩]⟩ 1 2).state) 1 2 =
      { ok := true
        messages := conversationMessages
          ((getConversation ⟨[1, 2], [⟨0, 2, 1, "yo", false, [], 3⟩]⟩ 1 2).state) 1 2
        state := (getConversation ⟨[1, 2], [⟨0, 2, 1, "yo", false, [], 3⟩]⟩ 1 2).state
        events := [] } :=
  read_on_view ⟨[1, 2], [⟨0, 2, 1, "yo", false, [], 3⟩]⟩ 1 2 (by decide)

/-- Claim C5: a message soft-deleted for `x` never appears in any of `x`'s
conversation listings, still appears in the other party's listing with `x`
when that party has not deleted it, and is excluded from `x`'s unread count. -/
theorem soft_delete_filtering (st : MsgState) (m : Message) (x : Nat)
    (hm : m ∈ st.messages) (hx : x ∈ m.deletedFor) :
    (∀ y, m ∉ conversationMessages st x y) ∧
    ((x = m.sender ∨ x = m.recipient) →
      (if x = m.sender then m.recipient else m.sender) ∉ m.deletedFor →
      m ∈ conversationMessages st (if x = m.sender then m.recipient else m.sender) x) ∧
    m ∉ unreadMessages st x := by
  refine ⟨?_, ?_, ?_⟩
  · intro y hmem
    rw [mem_conversationMessages] at hmem
    simp only [Bool.and_eq_true, Bool.not_eq_true', decide_eq_false_iff_not] at hmem
    exact hmem.2.2 hx
  · intro hend hu
    rw [mem_conversationMessages]
    refine ⟨hm, ?_⟩
    by_cases hs : x = m.sender
    · rw [if_pos hs] at hu ⊢
      simp [← hs, hu]
    · have hr : x = m.recipient := hend.resolve_left hs
      rw [if_neg hs] at hu ⊢
      simp [← hr, hu]
  · intro hmem
    unfold unreadMessages at hmem
    rw [List.mem_filter] at hmem
    simp only [Bool.and_eq_true, Bool.not_eq_true', decide_eq_false_iff_not] at hmem
    exact hmem.2.2 hx

/-- Witness for the claim C5 theorem on a concrete hidden message. -/
theorem soft_delete_filtering_witness :
    (∀ y, (⟨0, 1, 2, "hi", false, [1], 5⟩ : Message) ∉
        conversationMessages ⟨[1, 2], [⟨0, 1, 2, "hi", false, [1], 5⟩]⟩ 1 y) ∧
    ((1 = (⟨0, 1, 2, "hi", false, [1], 5⟩ : Message).sender ∨
        1 = (⟨0, 1, 2, "hi", false, [1], 5⟩ : Message).recipient) →
      (if 1 = (⟨0, 1, 2, "hi", false, [1], 5⟩ : Message).sender then
          (⟨0, 1, 2, "hi", false, [1], 5⟩ : Message).recipient
        else (⟨0, 1, 2, "hi", false, [1], 5⟩ : Message).sender) ∉
          (⟨0, 1, 2, "hi", false, [1], 5⟩ : Message).deletedFor →
      (⟨0, 1, 2, "hi", false, [1], 5⟩ : Message) ∈
        conversationMessages ⟨[1, 2], [⟨0, 1, 2, "hi", false, [1], 5⟩]⟩
          (if 1 = (⟨0, 1, 2, "hi", false, [1], 5⟩ : Message).sender then
              (⟨0, 1, 2, "hi", false, [1], 5⟩ : Message).recipient
            else (⟨0, 1, 2, "hi", false, [1], 5⟩ : Message).sender) 1) ∧
    (⟨0, 1, 2, "hi", false, [1], 5⟩ : Message) ∉
      unreadMessages ⟨[1, 2], [⟨0, 1, 2, "hi", false, [1], 5⟩]⟩ 1 :=
  soft_delete_filtering ⟨[1, 2], [⟨0, 1, 2, "hi", false, [1], 5⟩]⟩
    ⟨0, 1, 2, "hi", false, [1], 5⟩ 1 (by decide) (by decide)

lemma findFirst_eq_none {p : α → Prop} [DecidablePred p] {l : List α}
    (h : ∀ a ∈ l, ¬ p a) : findFirst p l = none := by
  induction l with
  | nil => rfl
  | cons a as ih =>
    unfold findFirst
    rw [if_neg (h a (by simp))]
    exact ih (fun b hb => h b (by simp [hb]))

lemma findFirst_eq_head?_filter (p : α → Prop) [DecidablePred p] (l : List α) :
    findFirst p l = (l.filter (fun a => decide (p a))).head? := by
  induction l with
  | nil => rfl
  | cons a as ih =>
    unfold findFirst
    rw [List.filter_cons]
    by_cases h : p a
    · simp [h]
    · simp [h, ih]

lemma filter_update_of_nodup {α : Type} (l : List α) (idf : α → Nat) (p : α → Bool)
    (a a' : α) (hnd : (l.map idf).Nodup) (hfil : l.filter p = [a])
    (hid : idf a' = idf a) (hp : p a' = true) :
    (l.map (fun b => if idf b = idf a then a' else b)).filter p = [a'] := by
  have hal : a ∈ l := by
    have : a ∈ l.filter p := by rw [hfil]; exact List.mem_singleton_self a
    exact (List.mem_filter.mp this).1
  have hpa : p a = true := by
    have : a ∈ l.filter p := by rw [hfil]; exact List.mem_singleton_self a
    exact (List.mem_filter.mp this).2
  rw [List.filter_map]
  have hcong : l.filter ((fun b => p b) ∘ (fun b => if idf b = idf a then a' else b)) =
      l.filter p := by
    refine List.filter_congr fun b hb => ?_
    by_cases hb' : idf b = idf a
    · have hba : b = a := List.inj_on_of_nodup_map hnd hb hal hb'
      subst hba
      simp [hp, hpa]
    · simp only [Function.comp_apply, if_neg hb']
  rw [hcong, hfil]
  simp [hid]

/-- Claim C2 (amended): if `y`'s request to `x` is the pair's only request and
is pending, and no Friendship for `{x,y}` is active for `x`, then
`sendRequest(x, y)` auto-accepts: the pair's only request becomes `accepted`,
exactly one Friendship for the pair is active afterwards (fresh, or the
existing record reactivated in place with `x` and `y` pulled from
`deletedFor`), and `friend_request_accepted` is published to both channels. -/
theorem reciprocal_auto_accept_amended (st : FriendState) (x y : Nat) (r : FriendRequest)
    (hxy : x ≠ y) (hyu : y ∈ st.users)
    (hreq : st.requests.filter (fun q => decide (pairReq x y q)) = [r])
    (hrs : r.sender = y) (hrp : r.status = .pending)
    (hrnd : (st.requests.map (fun q => q.id)).Nodup)
    (hfnd : (st.friendships.map (fun f => f.id)).Nodup)
    (hhidden : ∀ f ∈ st.friendships, pairFriend x y f → x ∈ f.deletedFor)
    (hfcount : (st.friendships.filter (fun f => decide (pairFriend x y f))).length ≤ 1) :
    ∃ fid,
      (sendRequest st x y).outcome = .autoAccepted fid ∧
      (sendRequest st x y).state.requests.filter (fun q => decide (pairReq x y q)) =
        [{ r with status := .accepted }] ∧
      (∃ f', (sendRequest st x y).state.friendships.filter
          (fun f => decide (pairFriend x y f)) = [f'] ∧
        f'.id = fid ∧ x ∉ f'.deletedFor ∧ y ∉ f'.deletedFor ∧
        (∀ f0, st.friendships.filter (fun f => decide (pairFriend x y f)) = [f0] →
          f'.id = f0.id)) ∧
      (sendRequest st x y).events =
        [.friend_request_accepted y fid x, .friend_request_accepted x fid y] := by
  have hrfil : r ∈ st.requests.filter (fun q => decide (pairReq x y q)) := by
    rw [hreq]; exact List.mem_singleton_self r
  have hrmem : r ∈ st.requests := (List.mem_filter.mp hrfil).1
  have hrpair : pairReq x y r := by
    have := (List.mem_filter.mp hrfil).2
    exact of_decide_eq_true this
  have hfind_req : findFirst (pairReq x y) st.requests = some r := by
    rw [findFirst_eq_head?_filter, hreq]; rfl
  have hfind_active : findFirst (fun f => pairFriend x y f ∧ ¬ x ∈ f.deletedFor)
      st.friendships = none :=
    findFirst_eq_none (fun f hf h => h.2 (hhidden f hf h.1))
  have hc1 : ¬(r.sender = x ∧ r.status = ReqStatus.pending) :=
    fun h => hxy (h.1.symm.trans hrs)
  have hc2 : ¬(r.status = ReqStatus.rejected ∨ r.status = ReqStatus.accepted) := by
    rw [hrp]
    rintro (h | h) <;> exact ReqStatus.noConfusion h
  have hc3 : r.sender = y ∧ r.status = ReqStatus.pending := ⟨hrs, hrp⟩
  have hexp : decide (pairReq x y { r with status := ReqStatus.accepted }) = true := by
    apply decide_eq_true
    rcases hrpair with ⟨h1, h2⟩ | ⟨h1, h2⟩
    · exact Or.inl ⟨h1, h2⟩
    · exact Or.inr ⟨h1, h2⟩
  have hreqpost : (updateRequest st.requests r.id { r with status := ReqStatus.accepted }).filter
      (fun q => decide (pairReq x y q)) = [{ r with status := ReqStatus.accepted }] := by
    simp only [updateRequest]
    exact filter_update_of_nodup st.requests (fun q => q.id) _ r _ hrnd hreq rfl hexp
  rcases hcase : st.friendships.filter (fun f => decide (pairFriend x y f)) with _ | ⟨f0, tl⟩
  · -- no friendship row for the pair exists: a fresh one is inserted
    have hfind_pair : findFirst (pairFriend x y) st.friendships = none := by
      rw [findFirst_eq_head?_filter, hcase]; rfl
    refine ⟨st.nextId, ?_⟩
    simp only [sendRequest, if_neg hxy, if_neg (not_not_intro hyu), hfind_active, hfind_req,
      if_neg hc1, if_neg hc2, if_pos hc3, materializeFriendship, hfind_pair]
    refine ⟨trivial, hreqpost, ⟨⟨st.nextId, x, y, []⟩, ?_, rfl, by simp, by simp,
      fun f0 h => absurd h (by simp)⟩, trivial⟩
    rw [List.filter_append, hcase]
    simp [pairFriend]
  · -- a (tombstoned) row exists: it is reactivated in place
    have htl : tl = [] := by
      have h1 := hfcount
      rw [hcase] at h1
      simp only [List.length_cons] at h1
      exact List.length_eq_zero.mp (by omega)
    subst htl
    have hfind_pair : findFirst (pairFriend x y) st.friendships = some f0 := by
      rw [findFirst_eq_head?_filter, hcase]; rfl
    have hp0 : decide (pairFriend x y f0) = true := by
      have : f0 ∈ st.friendships.filter (fun f => decide (pairFriend x y f)) := by
        rw [hcase]; exact List.mem_singleton_self f0
      exact (List.mem_filter.mp this).2
    have hpf' : decide (pairFriend x y
        { f0 with deletedFor := f0.deletedFor.filter (fun u => decide (u ≠ x ∧ u ≠ y)) }) = true := by
      apply decide_eq_true
      have := of_decide_eq_true hp0
      rcases this with ⟨h1, h2⟩ | ⟨h1, h2⟩
      · exact Or.inl ⟨h1, h2⟩
      · exact Or.inr ⟨h1, h2⟩
    have hfpost := filter_update_of_nodup st.friendships (fun f => f.id)
      (fun f => decide (pairFriend x y f)) f0
      { f0 with deletedFor := f0.deletedFor.filter (fun u => decide (u ≠ x ∧ u ≠ y)) }
      hfnd hcase rfl hpf'
    refine ⟨f0.id, ?_⟩
    simp only [sendRequest, if_neg hxy, if_neg (not_not_intro hyu), hfind_active, hfind_req,
      if_neg hc1, if_neg hc2, if_pos hc3, materializeFriendship, hfind_pair]
    refine ⟨trivial, hreqpost,
      ⟨{ f0 with deletedFor := f0.deletedFor.filter (fun u => decide (u ≠ x ∧ u ≠ y)) },
        ?_, rfl, ?_, ?_, ?_⟩, trivial⟩
    · simpa only [updateFriend] using hfpost
    · intro hmem
      have := (List.mem_filter.mp hmem).2
      simp at this
    · intro hmem
      have h2 := (List.mem_filter.mp hmem).2
      rw [decide_eq_true_eq] at h2
      exact h2.2 rfl
    · intro f1 h
      have : f0 = f1 := by
        have := List.head_eq_of_cons_eq h
        exact this
      rw [← this]

/-- Claim C2 counterexample: in the reachable state where users 1 and 2 were
friends, only 2 removed the friendship and re-requested, the pending request
from 2 to 1 coexists with a Friendship still active for 1, so `sendRequest(1,2)`
fails with `alreadyFriends` and publishes nothing instead of auto-accepting. -/
theorem reciprocal_auto_accept_counterexample :
    ((runOps (initialFriendState [1, 2])
        [.send 1 2, .respond 0 2 .accepted, .remove 2 1, .send 2 1]).requests.filter
      (fun q => decide (pairReq 1 2 q)) = [⟨0, 2, 1, .pending⟩]) ∧
    (sendRequest (runOps (initialFriendState [1, 2])
        [.send 1 2, .respond 0 2 .accepted, .remove 2 1, .send 2 1]) 1 2).outcome =
      .alreadyFriends ∧
    (sendRequest (runOps (initialFriendState [1, 2])
        [.send 1 2, .respond 0 2 .accepted, .remove 2 1, .send 2 1]) 1 2).events = [] := by
  decide

/-- Witness for the claim C2 amended theorem on a concrete state with a
pending reciprocal request and a friendship tombstoned for the sender. -/
theorem reciprocal_auto_accept_witness :
    ∃ fid,
      (sendRequest ⟨[1, 2], [⟨0, 2, 1, .pending⟩], [⟨1, 1, 2, [1]⟩], 2⟩ 1 2).outcome =
        .autoAccepted fid ∧
      (sendRequest ⟨[1, 2], [⟨0, 2, 1, .pending⟩], [⟨1, 1, 2, [1]⟩], 2⟩ 1 2).state.requests.filter
        (fun q => decide (pairReq 1 2 q)) =
          [{ (⟨0, 2, 1, .pending⟩ : FriendRequest) with status := .accepted }] ∧
      (∃ f', (sendRequest ⟨[1, 2], [⟨0, 2, 1, .pending⟩], [⟨1, 1, 2, [1]⟩], 2⟩
          1 2).state.friendships.filter (fun f => decide (pairFriend 1 2 f)) = [f'] ∧
        f'.id = fid ∧ 1 ∉ f'.deletedFor ∧ 2 ∉ f'.deletedFor ∧
        (∀ f0, (([⟨1, 1, 2, [1]⟩] : List Friend)).filter
            (fun f => decide (pairFriend 1 2 f)) = [f0] → f'.id = f0.id)) ∧
      (sendRequest ⟨[1, 2], [⟨0, 2, 1, .pending⟩], [⟨1, 1, 2, [1]⟩], 2⟩ 1 2).events =
        [.friend_request_accepted 2 fid 1, .friend_request_accepted 1 fid 2] :=
  reciprocal_auto_accept_amended ⟨[1, 2], [⟨0, 2, 1, .pending⟩], [⟨1, 1, 2, [1]⟩], 2⟩ 1 2
    ⟨0, 2, 1, .pending⟩ (by decide) (by decide) (by decide) (by decide) (by decide)
    (by decide) (by decide) (by decide) (by decide)

/-- Claim C3 counterexample: after `removeFriendship(1,2)` then
`sendRequest(1,2)`, the original Friendship row still carries user 1 in
`deletedFor` (it is not reactivated; only the request was flipped to pending),
and the reverse-direction `sendRequest(2,1)` fails with `alreadyFriends`. -/
theorem tombstone_reversibility_counterexample :
    ((runOps (initialFriendState [1, 2])
        [.send 1 2, .respond 0 2 .accepted, .remove 1 2, .send 1 2]).friendships =
      [⟨1, 1, 2, [1]⟩]) ∧
    (sendRequest (runOps (initialFriendState [1, 2])
        [.send 1 2, .respond 0 2 .accepted, .remove 1 2]) 1 2).outcome = .resent 0 ∧
    (sendRequest (runOps (initialFriendState [1, 2])
        [.send 1 2, .respond 0 2 .accepted, .remove 1 2]) 2 1).outcome = .alreadyFriends := by
  decide

/-- Claim C3 (amended): after `removeFriendship(x,y)`, `sendRequest(x,y)`
reuses the pair's request but leaves the Friendship row tombstoned for `x`;
the original row (same id) is reactivated only once `y` accepts again, and no
second Friendship row is ever created; the reverse-direction `sendRequest(y,x)`
fails with `alreadyFriends` while the friendship is still active for `y`. -/
theorem tombstone_reversibility_amended (us : List Nat) (x y : Nat)
    (hxy : x ≠ y) (hxu : x ∈ us) (hyu : y ∈ us) :
    runOps (initialFriendState us) [.send x y, .respond 0 y .accepted, .remove x y, .send x y] =
      { users := us, requests := [⟨0, x, y, .pending⟩],
        friendships := [⟨1, x, y, [x]⟩], nextId := 2 } ∧
    (sendRequest (runOps (initialFriendState us)
        [.send x y, .respond 0 y .accepted, .remove x y]) y x).outcome = .alreadyFriends ∧
    runOps (initialFriendState us)
        [.send x y, .respond 0 y .accepted, .remove x y, .send x y, .respond 0 y .accepted] =
      { users := us, requests := [⟨0, x, y, .accepted⟩],
        friendships := [⟨1, x, y, []⟩], nextId := 2 } := by
  have s1 : sendRequest (initialFriendState us) x y =
      { outcome := .created 0
        state := { users := us, requests := [⟨0, x, y, .pending⟩], friendships := [], nextId := 1 }
        events := [.friend_request y 0 x] } := by
    simp [sendRequest, initialFriendState, createNewRequest, findFirst, hxy, hyu]
  have s2 : respond ⟨us, [⟨0, x, y, .pending⟩], [], 1⟩ 0 y .accepted =
      { outcome := .responded (some 1)
        state := { users := us, requests := [⟨0, x, y, .accepted⟩],
                   friendships := [⟨1, x, y, []⟩], nextId := 2 }
        events := [.friend_request_accepted x 1 y] } := by
    simp [respond, materializeFriendship, findFirst, updateRequest, Decision.toStatus]
  have s3 : removeFriendship ⟨us, [⟨0, x, y, .accepted⟩], [⟨1, x, y, []⟩], 2⟩ x y =
      { outcome := .removed 1
        state := { users := us, requests := [⟨0, x, y, .rejected⟩],
                   friendships := [⟨1, x, y, [x]⟩], nextId := 2 }
        events := [.friendship_removed y x] } := by
    simp [removeFriendship, findFirst, updateFriend, updateRequest, pairFriend, pairReq]
  have s4 : sendRequest ⟨us, [⟨0, x, y, .rejected⟩], [⟨1, x, y, [x]⟩], 2⟩ x y =
      { outcome := .resent 0
        state := { users := us, requests := [⟨0, x, y, .pending⟩],
                   friendships := [⟨1, x, y, [x]⟩], nextId := 2 }
        events := [.friend_request y 0 x] } := by
    simp [sendRequest, findFirst, updateRequest, pairFriend, pairReq, hxy, hyu]
  have s5 : sendRequest ⟨us, [⟨0, x, y, .rejected⟩], [⟨1, x, y, [x]⟩], 2⟩ y x =
      { outcome := .alreadyFriends
        state := { users := us, requests := [⟨0, x, y, .rejected⟩],
                   friendships := [⟨1, x, y, [x]⟩], nextId := 2 }
        events := [] } := by
    simp [sendRequest, findFirst, pairFriend, hxy, Ne.symm hxy, hxu]
  have s6 : respond ⟨us, [⟨0, x, y, .pending⟩], [⟨1, x, y, [x]⟩], 2⟩ 0 y .accepted =
      { outcome := .responded (some 1)
        state := { users := us, requests := [⟨0, x, y, .accepted⟩],
                   friendships := [⟨1, x, y, []⟩], nextId := 2 }
        events := [.friend_request_accepted x 1 y] } := by
    simp [respond, materializeFriendship, findFirst, updateRequest, updateFriend,
      pairFriend, Decision.toStatus, hxy, Ne.symm hxy]
  refine ⟨?_, ?_, ?_⟩
  · simp only [runOps, List.foldl_cons, List.foldl_nil, stepOp, s1, s2, s3, s4]
  · simp only [runOps, List.foldl_cons, List.foldl_nil, stepOp, s1, s2, s3, s5]
  · simp only [runOps, List.foldl_cons, List.foldl_nil, stepOp, s1, s2, s3, s4, s6]

/-- Witness for the claim C3 amended theorem at users 1 and 2. -/
theorem tombstone_reversibility_witness :
    runOps (initialFriendState [1, 2])
        [.send 1 2, .respond 0 2 .accepted, .remove 1 2, .send 1 2] =
      { users := [1, 2], requests := [⟨0, 1, 2, .pending⟩],
        friendships := [⟨1, 1, 2, [1]⟩], nextId := 2 } ∧
    (sendRequest (runOps (initialFriendState [1, 2])
        [.send 1 2, .respond 0 2 .accepted, .remove 1 2]) 2 1).outcome = .alreadyFriends ∧
    runOps (initialFriendState [1, 2])
        [.send 1 2, .respond 0 2 .accepted, .remove 1 2, .send 1 2, .respond 0 2 .accepted] =
      { users := [1, 2], requests := [⟨0, 1, 2, .accepted⟩],
        friendships := [⟨1, 1, 2, []⟩], nextId := 2 } :=
  tombstone_reversibility_amended [1, 2] 1 2 (by decide) (by decide) (by decide)

/-- Claim C9: after `A` sends a request to `B`, it appears in `B`'s
pending-received list; after `B` rejects it, a second `sendRequest(A,B)`
succeeds and reuses the same record (same request id 0) with its status reset
to `pending`, not a newly inserted record. -/
theorem rerequest_after_reject (us : List Nat) (A B : Nat)
    (hAB : A ≠ B) (hBu : B ∈ us) :
    (⟨0, A, B, .pending⟩ : FriendRequest) ∈
      receivedRequests (runOps (initialFriendState us) [.send A B]) B ∧
    runOps (initialFriendState us) [.send A B, .respond 0 B .rejected] =
      { users := us, requests := [⟨0, A, B, .rejected⟩], friendships := [], nextId := 1 } ∧
    sendRequest (runOps (initialFriendState us) [.send A B, .respond 0 B .rejected]) A B =
      { outcome := .resent 0
        state := { users := us, requests := [⟨0, A, B, .pending⟩], friendships := [], nextId := 1 }
        events := [.friend_request B 0 A] } := by
  have s1 : sendRequest (initialFriendState us) A B =
      { outcome := .created 0
        state := { users := us, requests := [⟨0, A, B, .pending⟩], friendships := [], nextId := 1 }
        events := [.friend_request B 0 A] } := by
    simp [sendRequest, initialFriendState, createNewRequest, findFirst, hAB, hBu]
  have s2 : respond ⟨us, [⟨0, A, B, .pending⟩], [], 1⟩ 0 B .rejected =
      { outcome := .responded none
        state := { users := us, requests := [⟨0, A, B, .rejected⟩], friendships := [], nextId := 1 }
        events := [] } := by
    simp [respond, findFirst, updateRequest, Decision.toStatus]
  have s3 : sendRequest ⟨us, [⟨0, A, B, .rejected⟩], [], 1⟩ A B =
      { outcome := .resent 0
        state := { users := us, requests := [⟨0, A, B, .pending⟩], friendships := [], nextId := 1 }
        events := [.friend_request B 0 A] } := by
    simp [sendRequest, findFirst, updateRequest, pairReq, hAB, hBu]
  refine ⟨?_, ?_, ?_⟩
  · simp only [runOps, List.foldl_cons, List.foldl_nil, stepOp, s1]
    simp [receivedRequests]
  · simp only [runOps, List.foldl_cons, List.foldl_nil, stepOp, s1, s2]
  · simp only [runOps, List.foldl_cons, List.foldl_nil, stepOp, s1, s2, s3]

/-- Witness for the claim C9 theorem at users 1 and 2. -/
theorem rerequest_after_reject_witness :
    (⟨0, 1, 2, .pending⟩ : FriendRequest) ∈
      receivedRequests (runOps (initialFriendState [1, 2]) [.send 1 2]) 2 ∧
    runOps (initialFriendState [1, 2]) [.send 1 2, .respond 0 2 .rejected] =
      { users := [1, 2], requests := [⟨0, 1, 2, .rejected⟩], friendships := [], nextId := 1 } ∧
    sendRequest (runOps (initialFriendState [1, 2]) [.send 1 2, .respond 0 2 .rejected]) 1 2 =
      { outcome := .resent 0
        state := { users := [1, 2], requests := [⟨0, 1, 2, .pending⟩], friendships := [],
                   nextId := 1 }
        events := [.friend_request 2 0 1] } :=
  rerequest_after_reject [1, 2] 1 2 (by decide) (by decide)

lemma pairFriend_symm (x y : Nat) (f : Friend) : pairFriend x y f ↔ pairFriend y x f := by
  unfold pairFriend
  tauto

lemma pairFriend_iff_of_users {f f' : Friend} (h1 : f'.user1 = f.user1)
    (h2 : f'.user2 = f.user2) (x y : Nat) : pairFriend x y f' ↔ pairFriend x y f := by
  unfold pairFriend
  rw [h1, h2]

lemma findFirst_eq_none_iff {p : α → Prop} [DecidablePred p] {l : List α} :
    findFirst p l = none ↔ l.filter (fun a => decide (p a)) = [] := by
  rw [findFirst_eq_head?_filter, List.head?_eq_none_iff]

lemma findFirst_eq_some_imp {p : α → Prop} [DecidablePred p] {l : List α} {a : α}
    (h : findFirst p l = some a) : a ∈ l ∧ p a := by
  rw [findFirst_eq_head?_filter] at h
  have hmem : a ∈ l.filter (fun a => decide (p a)) := by
    rcases hl : l.filter (fun a => decide (p a)) with _ | ⟨b, bs⟩
    · rw [hl] at h; exact absurd h (by simp)
    · rw [hl] at h
      simp only [List.head?_cons, Option.some.injEq] at h
      cases h
      exact List.mem_cons_self _ _
  have := List.mem_filter.mp hmem
  exact ⟨this.1, of_decide_eq_true this.2⟩

lemma mem_updateFriend {l : List Friend} {i : Nat} {f' g : Friend}
    (hg : g ∈ updateFriend l i f') : g = f' ∨ g ∈ l := by
  unfold updateFriend at hg
  rcases List.mem_map.mp hg with ⟨f, hf, rfl⟩
  by_cases h : f.id = i
  · rw [if_pos h]; exact Or.inl rfl
  · rw [if_neg h]; exact Or.inr hf

lemma mem_updateRequest {l : List FriendRequest} {i : Nat} {r' q : FriendRequest}
    (hq : q ∈ updateRequest l i r') : q = r' ∨ q ∈ l := by
  unfold updateRequest at hq
  rcases List.mem_map.mp hq with ⟨p, hp, rfl⟩
  by_cases h : p.id = i
  · rw [if_pos h]; exact Or.inl rfl
  · rw [if_neg h]; exact Or.inr hp

lemma map_id_updateFriend (l : List Friend) (i : Nat) (f' : Friend) (hid : f'.id = i) :
    (updateFriend l i f').map (fun f => f.id) = l.map (fun f => f.id) := by
  unfold updateFriend
  rw [List.map_map]
  refine List.map_congr_left fun f _ => ?_
  by_cases h : f.id = i
  · calc ((fun f => f.id) ∘ fun g => if g.id = i then f' else g) f
        = (if f.id = i then f' else f).id := rfl
      _ = f'.id := by rw [if_pos h]
      _ = f.id := hid.trans h.symm
  · simp only [Function.comp_apply, if_neg h]

lemma filterlen_updateFriend (l : List Friend) (f0 f' : Friend)
    (hnd : (l.map (fun f => f.id)).Nodup) (hf0 : f0 ∈ l)
    (hu1 : f'.user1 = f0.user1) (hu2 : f'.user2 = f0.user2) (x y : Nat) :
    ((updateFriend l f0.id f').filter (fun f => decide (pairFriend x y f))).length =
      (l.filter (fun f => decide (pairFriend x y f))).length := by
  unfold updateFriend
  rw [List.filter_map, List.length_map]
  congr 1
  refine List.filter_congr fun f hf => ?_
  by_cases h : f.id = f0.id
  · have hff : f = f0 := List.inj_on_of_nodup_map hnd hf hf0 h
    subst hff
    calc ((fun f => decide (pairFriend x y f)) ∘ fun g => if g.id = f.id then f' else g) f
        = decide (pairFriend x y (if f.id = f.id then f' else f)) := rfl
      _ = decide (pairFriend x y f') := by rw [if_pos rfl]
      _ = decide (pairFriend x y f) :=
          decide_eq_decide.mpr (pairFriend_iff_of_users hu1 hu2 x y)
  · simp only [Function.comp_apply, if_neg h]

lemma storeInv_updateRequest (st : FriendState) (i : Nat) (r' : FriendRequest)
    (hr' : r'.sender ≠ r'.recipient) (h : StoreInv st) :
    StoreInv { st with requests := updateRequest st.requests i r' } := by
  refine ⟨h.1, h.2.1, h.2.2.1, ?_, h.2.2.2.2⟩
  intro q hq
  rcases mem_updateRequest hq with rfl | hq
  · exact hr'
  · exact h.2.2.2.1 q hq

lemma storeInv_updateFriend (st : FriendState) (f0 f' : Friend)
    (hmem : f0 ∈ st.friendships) (hid : f'.id = f0.id)
    (hu1 : f'.user1 = f0.user1) (hu2 : f'.user2 = f0.user2) (h : StoreInv st) :
    StoreInv { st with friendships := updateFriend st.friendships f0.id f' } := by
  refine ⟨?_, ?_, ?_, h.2.2.2.1, ?_⟩
  · intro g hg
    rcases mem_updateFriend hg with rfl | hg
    · rw [hid]; exact h.1 f0 hmem
    · exact h.1 g hg
  · rw [map_id_updateFriend st.friendships f0.id f' (by rw [hid])]
    exact h.2.1
  · intro g hg
    rcases mem_updateFriend hg with rfl | hg
    · rw [hu1, hu2]; exact h.2.2.1 f0 hmem
    · exact h.2.2.1 g hg
  · intro x y
    unfold pairCount
    rw [filterlen_updateFriend st.friendships f0 f' h.2.1 hmem hu1 hu2 x y]
    exact h.2.2.2.2 x y

lemma storeInv_appendFriend (st : FriendState) (a b : Nat) (hab : a ≠ b)
    (hnone : findFirst (pairFriend a b) st.friendships = none) (h : StoreInv st) :
    StoreInv { st with
               friendships := st.friendships ++ [⟨st.nextId, a, b, []⟩]
               nextId := st.nextId + 1 } := by
  refine ⟨?_, ?_, ?_, h.2.2.2.1, ?_⟩
  · intro g hg
    rcases List.mem_append.mp hg with hg | hg
    · exact Nat.lt_trans (h.1 g hg) (Nat.lt_succ_self _)
    · rw [List.mem_singleton.mp hg]; exact Nat.lt_succ_self _
  · rw [List.map_append, List.nodup_append]
    refine ⟨h.2.1, List.nodup_singleton _, ?_⟩
    intro i hi hi'
    rcases List.mem_map.mp hi with ⟨g, hg, rfl⟩
    rw [List.map_singleton, List.mem_singleton] at hi'
    exact absurd (hi' ▸ h.1 g hg) (lt_irrefl _)
  · intro g hg
    rcases List.mem_append.mp hg with hg | hg
    · exact h.2.2.1 g hg
    · rw [List.mem_singleton.mp hg]; exact hab
  · intro x y
    unfold pairCount
    rw [List.filter_append, List.length_append]
    by_cases hp : decide (pairFriend x y (⟨st.nextId, a, b, []⟩ : Friend)) = true
    · have hpp := of_decide_eq_true hp
      have hemp : st.friendships.filter (fun f => decide (pairFriend x y f)) = [] := by
        rw [List.filter_eq_nil_iff]
        intro f hf hdec
        have hpf := of_decide_eq_true hdec
        have hab' : pairFriend a b f := by
          rcases hpp with ⟨e1, e2⟩ | ⟨e1, e2⟩
          · simp only at e1 e2
            rw [← e1, ← e2] at hpf
            exact hpf
          · simp only at e1 e2
            rw [← e1, ← e2] at hpf
            exact (pairFriend_symm a b f).mpr hpf
        have := findFirst_eq_none_iff.mp hnone
        rw [List.filter_eq_nil_iff] at this
        exact this f hf (decide_eq_true hab')
      rw [hemp]
      simp only [List.length_nil, Nat.zero_add]
      exact le_trans (List.length_filter_le _ _) (by simp)
    · have : ([(⟨st.nextId, a, b, []⟩ : Friend)].filter
          (fun f => decide (pairFriend x y f))) = [] := by
        rw [List.filter_eq_nil_iff]
        intro f hf hdec
        rw [List.mem_singleton.mp hf] at hdec
        exact hp hdec
      rw [this]
      simp only [List.length_nil, Nat.add_zero]
      exact h.2.2.2.2 x y

lemma storeInv_createNewRequest (st : FriendState) (s r : Nat) (hsr : s ≠ r)
    (h : StoreInv st) : StoreInv (createNewRequest st s r).state := by
  unfold createNewRequest
  refine ⟨?_, h.2.1, h.2.2.1, ?_, h.2.2.2.2⟩
  · intro g hg
    exact Nat.lt_trans (h.1 g hg) (Nat.lt_succ_self _)
  · intro q hq
    rcases List.mem_append.mp hq with hq | hq
    · exact h.2.2.2.1 q hq
    · rw [List.mem_singleton.mp hq]; exact hsr

lemma storeInv_materialize (st : FriendState) (a b : Nat) (hab : a ≠ b)
    (h : StoreInv st) : StoreInv (materializeFriendship st a b).2 := by
  unfold materializeFriendship
  rcases hff : findFirst (pairFriend a b) st.friendships with _ | f0
  · exact storeInv_appendFriend st a b hab hff h
  · have hmem := (findFirst_eq_some_imp hff).1
    exact storeInv_updateFriend st f0
      { f0 with deletedFor := f0.deletedFor.filter (fun u => decide (u ≠ a ∧ u ≠ b)) }
      hmem rfl rfl rfl h

lemma storeInv_sendRequest (st : FriendState) (s r : Nat) (h : StoreInv st) :
    StoreInv (sendRequest st s r).state := by
  by_cases h1 : s = r
  · unfold sendRequest; rw [if_pos h1]; exact h
  by_cases h2 : r ∈ st.users
  case neg =>
    unfold sendRequest; rw [if_neg h1, if_pos h2]; exact h
  rcases hf : findFirst (fun f => pairFriend s r f ∧ ¬ s ∈ f.deletedFor) st.friendships
    with _ | f
  · rcases hq : findFirst (pairReq s r) st.requests with _ | ex
    · have he : sendRequest st s r = createNewRequest st s r := by
        unfold sendRequest
        rw [if_neg h1, if_neg (not_not_intro h2)]
        simp only [hf, hq]
      rw [he]
      exact storeInv_createNewRequest st s r h1 h
    · have hexmem := (findFirst_eq_some_imp hq).1
      by_cases hc1 : ex.sender = s ∧ ex.status = ReqStatus.pending
      · have he : sendRequest st s r =
            { outcome := .duplicatePending, state := st, events := [] } := by
          unfold sendRequest
          rw [if_neg h1, if_neg (not_not_intro h2)]
          simp only [hf, hq, if_pos hc1]
        rw [he]; exact h
      by_cases hc2 : ex.status = ReqStatus.rejected ∨ ex.status = ReqStatus.accepted
      · have he : (sendRequest st s r).state =
            { st with requests := (updateRequest st.requests ex.id
              (if ex.sender = r then { ex with sender := s, recipient := r, status := .pending }
               else { ex with status := .pending })) } := by
          unfold sendRequest
          rw [if_neg h1, if_neg (not_not_intro h2)]
          simp only [hf, hq, if_neg hc1, if_pos hc2]
        rw [he]
        refine storeInv_updateRequest st ex.id _ ?_ h
        by_cases hs : ex.sender = r
        · rw [if_pos hs]; exact h1
        · rw [if_neg hs]; exact h.2.2.2.1 ex hexmem
      by_cases hc3 : ex.sender = r ∧ ex.status = ReqStatus.pending
      · have hst1 : StoreInv { st with requests :=
            (updateRequest st.requests ex.id { ex with status := ReqStatus.accepted }) } :=
          storeInv_updateRequest st ex.id _ (h.2.2.2.1 ex hexmem) h
        have he : (sendRequest st s r).state =
            (materializeFriendship { st with requests :=
              (updateRequest st.requests ex.id { ex with status := ReqStatus.accepted }) } s r).2 := by
          unfold sendRequest
          rw [if_neg h1, if_neg (not_not_intro h2)]
          simp only [hf, hq, if_neg hc1, if_neg hc2, if_pos hc3]
        rw [he]
        exact storeInv_materialize _ s r h1 hst1
      · have he : sendRequest st s r = createNewRequest st s r := by
          unfold sendRequest
          rw [if_neg h1, if_neg (not_not_intro h2)]
          simp only [hf, hq, if_neg hc1, if_neg hc2, if_neg hc3]
        rw [he]
        exact storeInv_createNewRequest st s r h1 h
  · have he : sendRequest st s r = { outcome := .alreadyFriends, state := st, events := [] } := by
      unfold sendRequest
      rw [if_neg h1, if_neg (not_not_intro h2)]
      simp only [hf]
    rw [he]; exact h

lemma storeInv_respond (st : FriendState) (i uid : Nat) (d : Decision) (h : StoreInv st) :
    StoreInv (respond st i uid d).state := by
  rcases hq : findFirst (fun q => q.id = i) st.requests with _ | fr
  · have he : respond st i uid d = { outcome := .requestNotFound, state := st, events := [] } := by
      unfold respond; simp only [hq]
    rw [he]; exact h
  · have hmem := (findFirst_eq_some_imp hq).1
    by_cases hr1 : fr.recipient = uid
    case neg =>
      have he : respond st i uid d = { outcome := .forbidden, state := st, events := [] } := by
        unfold respond; simp only [hq, if_pos hr1]
      rw [he]; exact h
    by_cases hr2 : fr.status = ReqStatus.pending
    case neg =>
      have he : respond st i uid d = { outcome := .alreadyResolved, state := st, events := [] } := by
        unfold respond; simp only [hq, if_neg (not_not_intro hr1), if_pos hr2]
      rw [he]; exact h
    have hst1 : ∀ ds, StoreInv { st with requests :=
        (updateRequest st.requests fr.id { fr with status := ds }) } := fun ds =>
      storeInv_updateRequest st fr.id _ (h.2.2.2.1 fr hmem) h
    cases d with
    | rejected =>
      have he : (respond st i uid .rejected).state = { st with requests :=
          (updateRequest st.requests fr.id { fr with status := .rejected }) } := by
        unfold respond
        simp only [hq, if_neg (not_not_intro hr1), if_neg (not_not_intro hr2)]
        rfl
      rw [he]
      exact hst1 .rejected
    | accepted =>
      have he : (respond st i uid .accepted).state =
          (materializeFriendship { st with requests :=
            (updateRequest st.requests fr.id { fr with status := .accepted }) }
            fr.sender fr.recipient).2 := by
        unfold respond
        simp only [hq, if_neg (not_not_intro hr1), if_neg (not_not_intro hr2)]
        rfl
      rw [he]
      exact storeInv_materialize _ fr.sender fr.recipient (h.2.2.2.1 fr hmem) (hst1 .accepted)

lemma storeInv_removeFriendship (st : FriendState) (uid friendId : Nat) (h : StoreInv st) :
    StoreInv (removeFriendship st uid friendId).state := by
  rcases hf : findFirst (fun f => pairFriend uid friendId f ∧ ¬ uid ∈ f.deletedFor)
      st.friendships with _ | f0
  · have he : removeFriendship st uid friendId =
        { outcome := .friendshipNotFound, state := st, events := [] } := by
      unfold removeFriendship; simp only [hf]
    rw [he]; exact h
  · have hmem := (findFirst_eq_some_imp hf).1
    have hst1 : StoreInv { st with friendships := (updateFriend st.friendships f0.id
        { f0 with deletedFor := (if uid ∈ f0.deletedFor then f0.deletedFor
                                 else f0.deletedFor ++ [uid]) }) } :=
      storeInv_updateFriend st f0 _ hmem rfl rfl rfl h
    rcases hq : findFirst (pairReq uid friendId) st.requests with _ | q
    · have he : (removeFriendship st uid friendId).state =
          { st with friendships := (updateFriend st.friendships f0.id
            { f0 with deletedFor := (if uid ∈ f0.deletedFor then f0.deletedFor
                                     else f0.deletedFor ++ [uid]) }) } := by
        unfold removeFriendship
        simp only [hf, hq]
      rw [he]; exact hst1
    · have hqmem : q ∈ st.requests := (findFirst_eq_some_imp hq).1
      have he : (removeFriendship st uid friendId).state =
          { st with
            friendships := (updateFriend st.friendships f0.id
              { f0 with deletedFor := (if uid ∈ f0.deletedFor then f0.deletedFor
                                       else f0.deletedFor ++ [uid]) })
            requests := (updateRequest st.requests q.id { q with status := .rejected }) } := by
        unfold removeFriendship
        simp only [hf, hq]
      rw [he]
      exact storeInv_updateRequest
        { st with friendships := (updateFriend st.friendships f0.id
          { f0 with deletedFor := (if uid ∈ f0.deletedFor then f0.deletedFor
                                   else f0.deletedFor ++ [uid]) }) }
        q.id { q with status := .rejected } (h.2.2.2.1 q hqmem) hst1

lemma storeInv_stepOp (st : FriendState) (op : FOp) (h : StoreInv st) :
    StoreInv (stepOp st op) := by
  cases op with
  | send s r => exact storeInv_sendRequest st s r h
  | respond i u d => exact storeInv_respond st i u d h
  | remove u f => exact storeInv_removeFriendship st u f h

lemma storeInv_runOps (st : FriendState) (ops : List FOp) (h : StoreInv st) :
    StoreInv (runOps st ops) := by
  induction ops generalizing st with
  | nil => exact h
  | cons op ops ih =>
    show StoreInv (runOps (stepOp st op) ops)
    exact ih (stepOp st op) (storeInv_stepOp st op h)

lemma storeInv_initial (us : List Nat) : StoreInv (initialFriendState us) := by
  refine ⟨?_, ?_, ?_, ?_, ?_⟩ <;> simp [initialFriendState, pairCount]

/-- Claim C1: starting from an empty store, after any sequence of
`sendRequest` / `respond` / `removeFriendship` calls, at most one Friendship
record exists for any unordered pair of distinct identities. -/
theorem pair_uniqueness (us : List Nat) (ops : List FOp) (x y : Nat) (hxy : x ≠ y) :
    pairCount (runOps (initialFriendState us) ops) x y ≤ 1 :=
  (storeInv_runOps (initialFriendState us) ops (storeInv_initial us)).2.2.2.2 x y

/-- Witness for the claim C1 theorem on a concrete operation sequence that
creates, removes, and recreates a friendship. -/
theorem pair_uniqueness_witness :
    pairCount (runOps (initialFriendState [1, 2])
      [.send 1 2, .respond 0 2 .accepted, .remove 1 2, .send 1 2,
       .respond 0 2 .accepted]) 1 2 ≤ 1 :=
  pair_uniqueness [1, 2]
    [.send 1 2, .respond 0 2 .accepted, .remove 1 2, .send 1 2, .respond 0 2 .accepted]
    1 2 (by decide)

end GymBuddy
